import Mathlib

/-!
Shallow embedding of the PolyClaude arbitrage scanner of the
plugin-polymarket repository, together with proofs settling the claims
about its specification.

Conventions of the embedding:
* JavaScript numbers are modelled as rationals; parseFloat of a decimal
  price/size string is the identity on its value.
* Promise-returning fetches are modelled by passing the fetched value as
  an explicit argument; a fetch that can fail passes an Option.
* Date.now() and new Date(x).getTime() are passed as explicit
  millisecond timestamps.
* Fields that only carry fresh identifiers or formatted display strings
  (uuid ids, toFixed strings, ISO timestamp strings) are omitted from
  the records, since no behaviour reads them back.
-/

/-- One price level of an order book: price and size. -/
structure Level where
  price : ℚ
  size : ℚ
  deriving DecidableEq

/-- An order-book snapshot for one token: ask levels and bid levels as
returned by the CLOB book endpoint, best level first. -/
structure Book where
  asks : List Level
  bids : List Level
  deriving DecidableEq

/-- Best price of one side: the price of the first level, when present.
Models the JS expression book.side?.[0]?.price followed by parseFloat. -/
def bestPriceQ (levels : List Level) : Option ℚ :=
  levels.head?.map (fun l => l.price)

/-- JS truthiness filter applied to an extracted best price: the guard
if (!yesBestAsk || !yesBestBid || !noBestAsk || !noBestBid) return null
treats both a missing price and a price equal to 0 as falsy, so a best
price survives exactly when it is present and nonzero. -/
def truthyPrice : Option ℚ → Option ℚ
  | none => none
  | some p => if p = 0 then none else some p

/-- Sum of the ask sizes of a book: models
book.asks?.reduce((sum, a) => sum + parseFloat(a.size || "0"), 0) || 0. -/
def sumAskSizes (b : Book) : ℚ :=
  (b.asks.map (fun l => l.size)).sum

/-- Liquidity contribution of calculateRiskScore. -/
def liquidityPenalty (liquidity : ℚ) : ℕ × List String :=
  if liquidity < 500 then (2, ["low_liquidity"])
  else if liquidity < 1000 then (1, ["moderate_liquidity"])
  else (0, [])

/-- Spread contribution of calculateRiskScore. -/
def spreadPenalty (spread : ℚ) : ℕ × List String :=
  if spread > 0.05 then (2, ["wide_spread"])
  else if spread > 0.02 then (1, ["moderate_spread"])
  else (0, [])

/-- Days-to-expiry contribution of calculateRiskScore. -/
def expiryPenalty (daysLeft : ℚ) : ℕ × List String :=
  if daysLeft < 1 then (2, ["expiring_soon"])
  else if daysLeft < 7 then (1, ["short_expiry"])
  else (0, [])

/-- Thin-margin contribution of calculateRiskScore. -/
def marginPenalty (profitPercent : ℚ) : ℕ × List String :=
  if profitPercent < 1 then (1, ["thin_margin"])
  else (0, [])

/-- calculateRiskScore from the source (identical in the service file,
the action file and the standalone server): base score 3, additive
penalties in check order - liquidity, spread, expiry, margin - and the
final Math.min(score, 10) cap; the factor tags are pushed in the same
check order. -/
def calculateRiskScore (profitPercent liquidity spread daysLeft : ℚ) :
    ℕ × List String :=
  (min (3 + (liquidityPenalty liquidity).1 + (spreadPenalty spread).1
      + (expiryPenalty daysLeft).1 + (marginPenalty profitPercent).1) 10,
   (liquidityPenalty liquidity).2 ++ (spreadPenalty spread).2
      ++ (expiryPenalty daysLeft).2 ++ (marginPenalty profitPercent).2)

/-- getRiskLevel from the source. -/
def getRiskLevel (score : ℕ) : String :=
  if score ≤ 3 then "LOW"
  else if score ≤ 5 then "MEDIUM"
  else if score ≤ 7 then "HIGH"
  else "EXTREME"

/-- Arbitrage direction reported by the scanner. -/
inductive ArbDirection
  | BUY_BOTH
  | SELL_BOTH
  | NONE
  deriving DecidableEq

/-- The pricing block shared by scanMarket, scanMarketForArbitrage and
analyzeMarket: combined ask/bid, direction with BUY_BOTH precedence, and
gross profit percent ((buyBothProfit / combinedAsk) * 100 respectively
(sellBothProfit / 1) * 100); grossProfitPercent stays 0 when NONE. -/
def analyzePricing (yesBestAsk yesBestBid noBestAsk noBestBid : ℚ) :
    ArbDirection × ℚ :=
  let combinedAsk := yesBestAsk + noBestAsk
  let combinedBid := yesBestBid + noBestBid
  let buyBothProfit := 1 - combinedAsk
  let sellBothProfit := combinedBid - 1
  if buyBothProfit > 0 then
    (ArbDirection.BUY_BOTH, buyBothProfit / combinedAsk * 100)
  else if sellBothProfit > 0 then
    (ArbDirection.SELL_BOTH, sellBothProfit / 1 * 100)
  else (ArbDirection.NONE, 0)

/-- Models (endDate.getTime() - Date.now()) / (1000 * 60 * 60 * 24). -/
def daysToExpiry (endDateMs nowMs : ℤ) : ℚ :=
  ((endDateMs - nowMs : ℤ) : ℚ) / 86400000

/-- Scanner configuration (minProfitPercent, maxRiskScore, minLiquidity);
scanIntervalMs is timer plumbing and not part of the decision logic. -/
structure ScannerConfig where
  minProfitPercent : ℚ
  maxRiskScore : ℕ
  minLiquidity : Option ℚ

/-- The minLiquidity rejection test: in JS,
this.config.minLiquidity && minLiquidity < this.config.minLiquidity,
where an unset or zero config value is falsy and disables the check. -/
def minLiquidityGate (cfgMin : Option ℚ) (minLiq : ℚ) : Bool :=
  match cfgMin with
  | none => false
  | some v => if v = 0 then false else decide (minLiq < v)

/-- The market fields the scanner reads. -/
structure Market where
  conditionId : String
  question : String
  category : String
  endDateMs : ℤ
  active : Bool
  closed : Bool
  deriving DecidableEq

/-- An accepted arbitrage opportunity record (uuid id and ISO timestamp
strings omitted; the liquidity field is only populated by the standalone
server variant and carries min liquidity there). -/
structure Opportunity where
  conditionId : String
  question : String
  status : String
  arbDirection : ArbDirection
  combinedAsk : ℚ
  combinedBid : ℚ
  grossProfitPercent : ℚ
  grossProfitAbsolute : ℚ
  netProfitPercent : ℚ
  netProfitAbsolute : ℚ
  breakeven : ℚ
  riskLevel : String
  riskScore : ℕ
  riskFactors : List String
  confidenceScore : ℚ
  recommendedSize : ℚ
  maxSize : ℚ
  liquidity : ℚ
  deriving DecidableEq

/-- PolyClaudeService.scanMarket as a pure function: the two book
fetches are passed as Options (a failed fetch is none) and the clock as
nowMs.  Follows the source statement by statement: book guard, best
price guard (with JS falsiness of 0), pricing, profit threshold,
liquidity threshold, risk threshold, then the opportunity record. -/
def scanMarket (cfg : ScannerConfig) (m : Market) (nowMs : ℤ)
    (yesBookF noBookF : Option Book) : Option Opportunity :=
  match yesBookF, noBookF with
  | some yesBook, some noBook =>
    match truthyPrice (bestPriceQ yesBook.asks), truthyPrice (bestPriceQ yesBook.bids),
        truthyPrice (bestPriceQ noBook.asks), truthyPrice (bestPriceQ noBook.bids) with
    | some yesBestAsk, some yesBestBid, some noBestAsk, some noBestBid =>
      let combinedAsk := yesBestAsk + noBestAsk
      let combinedBid := yesBestBid + noBestBid
      let buyBothProfit := 1 - combinedAsk
      let sellBothProfit := combinedBid - 1
      let pr := analyzePricing yesBestAsk yesBestBid noBestAsk noBestBid
      if pr.1 = ArbDirection.NONE ∨ pr.2 < cfg.minProfitPercent then none
      else
        let yesLiquidity := sumAskSizes yesBook
        let noLiquidity := sumAskSizes noBook
        let minLiquidity := min yesLiquidity noLiquidity
        if minLiquidityGate cfg.minLiquidity minLiquidity then none
        else
          let dte := daysToExpiry m.endDateMs nowMs
          let avgSpread := ((yesBestAsk - yesBestBid) + (noBestAsk - noBestBid)) / 2
          let rs := calculateRiskScore pr.2 minLiquidity avgSpread dte
          if cfg.maxRiskScore < rs.1 then none
          else
            let estimatedFees : ℚ := 0.01
            let estimatedGas : ℚ := 0.002
            some {
              conditionId := m.conditionId
              question := m.question
              status := "active"
              arbDirection := pr.1
              combinedAsk := combinedAsk
              combinedBid := combinedBid
              grossProfitPercent := pr.2
              grossProfitAbsolute :=
                if pr.1 = ArbDirection.BUY_BOTH then buyBothProfit else sellBothProfit
              netProfitPercent := pr.2 - estimatedFees * 100 - estimatedGas * 100
              netProfitAbsolute :=
                (if pr.1 = ArbDirection.BUY_BOTH then buyBothProfit else sellBothProfit)
                  - estimatedFees - estimatedGas
              breakeven := estimatedFees + estimatedGas
              riskLevel := getRiskLevel rs.1
              riskScore := rs.1
              riskFactors := rs.2
              confidenceScore := if rs.1 ≤ 3 then 0.95 else if rs.1 ≤ 5 then 0.8 else 0.6
              recommendedSize := min (minLiquidity * 0.1) 1000
              maxSize := minLiquidity * 0.5
              liquidity := minLiquidity }
    | _, _, _, _ => none
  | _, _ => none

theorem liquidityPenalty_anti {a b : ℚ} (h : a ≤ b) :
    (liquidityPenalty b).1 ≤ (liquidityPenalty a).1 := by
  simp only [liquidityPenalty]
  split_ifs <;> first | omega | (exfalso; linarith)

theorem spreadPenalty_mono {a b : ℚ} (h : a ≤ b) :
    (spreadPenalty a).1 ≤ (spreadPenalty b).1 := by
  simp only [spreadPenalty]
  split_ifs <;> first | omega | (exfalso; linarith)

theorem expiryPenalty_anti {a b : ℚ} (h : a ≤ b) :
    (expiryPenalty b).1 ≤ (expiryPenalty a).1 := by
  simp only [expiryPenalty]
  split_ifs <;> first | omega | (exfalso; linarith)

theorem marginPenalty_anti {a b : ℚ} (h : a ≤ b) :
    (marginPenalty b).1 ≤ (marginPenalty a).1 := by
  simp only [marginPenalty]
  split_ifs <;> first | omega | (exfalso; linarith)

/-- C1: for every market whose two books yield all four best prices, the
scanner forms combinedAsk and combinedBid as the sums of best prices,
reports BUY_BOTH with gross (1 - combinedAsk)/combinedAsk * 100 whenever
1 - combinedAsk > 0, else SELL_BOTH with gross (combinedBid - 1) * 100
whenever combinedBid - 1 > 0, else NONE; and the two reference
quadruples give BUY_BOTH with gross 100/19 (about 5.263) and SELL_BOTH
with gross 16. -/
theorem C1_pricing (ya yb na nb : ℚ) :
    (analyzePricing ya yb na nb =
      if 0 < 1 - (ya + na) then
        (ArbDirection.BUY_BOTH, (1 - (ya + na)) / (ya + na) * 100)
      else if 0 < (yb + nb) - 1 then
        (ArbDirection.SELL_BOTH, ((yb + nb) - 1) * 100)
      else (ArbDirection.NONE, 0))
    ∧ analyzePricing 0.40 0.38 0.55 0.53 = (ArbDirection.BUY_BOTH, 100 / 19)
    ∧ |(100 : ℚ) / 19 - 5.263| < 0.001
    ∧ analyzePricing 0.60 0.58 0.60 0.58 = (ArbDirection.SELL_BOTH, 16) := by
  refine ⟨?_, by norm_num [analyzePricing], by norm_num [abs_of_pos], ?_⟩
  · simp only [analyzePricing, div_one, gt_iff_lt]
  · norm_num [analyzePricing]

/-- C2: the risk score is min(3 + penalties, 10) with the penalties and
tags exactly as specified in check order; it never exceeds 10; and the
all-worst-case input scores exactly 10 with all four tags. -/
theorem C2_risk_score (p l s d : ℚ) :
    (calculateRiskScore p l s d =
      (min (3
          + (if l < 500 then 2 else if l < 1000 then 1 else 0)
          + (if s > 0.05 then 2 else if s > 0.02 then 1 else 0)
          + (if d < 1 then 2 else if d < 7 then 1 else 0)
          + (if p < 1 then 1 else 0)) 10,
        (if l < 500 then ["low_liquidity"]
          else if l < 1000 then ["moderate_liquidity"] else [])
        ++ (if s > 0.05 then ["wide_spread"]
          else if s > 0.02 then ["moderate_spread"] else [])
        ++ (if d < 1 then ["expiring_soon"]
          else if d < 7 then ["short_expiry"] else [])
        ++ (if p < 1 then ["thin_margin"] else [])))
    ∧ (calculateRiskScore p l s d).1 ≤ 10
    ∧ calculateRiskScore 0 0 1 0 =
        (10, ["low_liquidity", "wide_spread", "expiring_soon", "thin_margin"]) := by
  refine ⟨?_, min_le_right _ _, by norm_num [calculateRiskScore,
    liquidityPenalty, spreadPenalty, expiryPenalty, marginPenalty]⟩
  simp only [calculateRiskScore, liquidityPenalty, spreadPenalty,
    expiryPenalty, marginPenalty]
  split_ifs <;> rfl

/-- C8: the risk scorer is monotone: lowering profit, lowering
liquidity, raising spread, or lowering days-to-expiry never lowers the
returned score (stated jointly, which implies each argument fixed
separately). -/
theorem C8_risk_monotone (p p2 l l2 s s2 d d2 : ℚ)
    (hp : p2 ≤ p) (hl : l2 ≤ l) (hs : s ≤ s2) (hd : d2 ≤ d) :
    (calculateRiskScore p l s d).1 ≤ (calculateRiskScore p2 l2 s2 d2).1 := by
  have h1 := liquidityPenalty_anti hl
  have h2 := spreadPenalty_mono hs
  have h3 := expiryPenalty_anti hd
  have h4 := marginPenalty_anti hp
  simp only [calculateRiskScore]
  exact min_le_min (by omega) le_rfl

/-- C8 witness: a concrete worsening of every argument at once. -/
theorem C8_risk_monotone_witness :
    (calculateRiskScore 2 1200 0.01 10).1 ≤ (calculateRiskScore 0.5 400 0.06 0).1 :=
  C8_risk_monotone 2 0.5 1200 400 0.01 0.06 10 0 (by norm_num) (by norm_num)
    (by norm_num) (by norm_num)

/-- The market fields read by the standalone server and the serverless
API (these identify markets by market_slug). -/
structure MarketInfo where
  conditionId : String
  question : String
  slug : String
  category : String
  endDateMs : ℤ
  volume : ℚ
  tokens : List String
  deriving DecidableEq

/-- A near-miss entry (id, deviationPercent string and timestamp
omitted). -/
structure NearMiss where
  question : String
  slug : String
  yesAsk : ℚ
  noAsk : ℚ
  yesBid : ℚ
  noBid : ℚ
  combinedAsk : ℚ
  combinedBid : ℚ
  deviation : ℚ
  direction : String
  volume : ℚ
  deriving DecidableEq

/-- A live-market display entry (id, spreadPercent string, endDate and
timestamp omitted). -/
structure LiveMarket where
  question : String
  slug : String
  category : String
  yesPrice : ℚ
  noPrice : ℚ
  yesBid : ℚ
  yesAsk : ℚ
  noBid : ℚ
  noAsk : ℚ
  spread : ℚ
  liquidity : ℚ
  volume : ℚ
  deriving DecidableEq

/-- Capacity bound of the near-miss list. -/
def MAX_NEAR_MISSES : ℕ := 20

/-- Capacity bound of the live-market list. -/
def MAX_LIVE_MARKETS : ℕ := 15

/-- The sorted insert of addNearMiss: the source finds the first entry
with strictly larger deviation (findIndex(n => n.deviation > deviation))
and splices the new entry in front of it, appending at the end when no
such entry exists. -/
def insertByDeviation (nm : NearMiss) : List NearMiss → List NearMiss
  | [] => [nm]
  | x :: xs =>
    if x.deviation > nm.deviation then nm :: x :: xs
    else x :: insertByDeviation nm xs

/-- The sorted insert of addLiveMarket: insert in front of the first
entry with strictly smaller liquidity (findIndex(m => m.liquidity <
totalLiquidity)), keeping the list in descending liquidity order. -/
def insertByLiquidity (lm : LiveMarket) : List LiveMarket → List LiveMarket
  | [] => [lm]
  | x :: xs =>
    if x.liquidity < lm.liquidity then lm :: x :: xs
    else x :: insertByLiquidity lm xs

/-- Remove the first list entry satisfying p, when there is one: models
the findIndex / splice(idx, 1) pair of the source. -/
def removeFirstBy (p : α → Bool) : List α → List α
  | [] => []
  | x :: xs => if p x then xs else x :: removeFirstBy p xs

/-- The near-miss entry built by addNearMiss. -/
def mkNearMiss (m : MarketInfo)
    (yesAsk noAsk yesBid noBid combinedAsk combinedBid volume : ℚ) : NearMiss :=
  { question := m.question
    slug := m.slug
    yesAsk := yesAsk
    noAsk := noAsk
    yesBid := yesBid
    noBid := noBid
    combinedAsk := combinedAsk
    combinedBid := combinedBid
    deviation := |1 - combinedAsk|
    direction := if combinedAsk < 1 then "UNDERPRICED" else "OVERPRICED"
    volume := volume }

/-- addNearMiss from the standalone server: build the entry, remove any
existing entry with the same market_slug, insert sorted by deviation
ascending, then pop from the tail while over capacity (modelled as
take MAX_NEAR_MISSES; popping from the tail of a list is dropping its
suffix). -/
def addNearMiss (nms : List NearMiss) (m : MarketInfo)
    (yesAsk noAsk yesBid noBid combinedAsk combinedBid volume : ℚ) :
    List NearMiss :=
  (insertByDeviation (mkNearMiss m yesAsk noAsk yesBid noBid combinedAsk combinedBid volume)
    (removeFirstBy (fun n => n.slug == m.slug) nms)).take MAX_NEAR_MISSES

/-- addLiveMarket from the standalone server: build the entry, remove
any existing entry with the same market_slug, insert sorted by
liquidity descending, then pop from the tail while over capacity. -/
def addLiveMarket (lms : List LiveMarket) (m : MarketInfo)
    (yesAsk noAsk yesBid noBid yesLiquidity noLiquidity : ℚ) :
    List LiveMarket :=
  let lm : LiveMarket := {
    question := m.question
    slug := m.slug
    category := m.category
    yesPrice := (yesBid + yesAsk) / 2
    noPrice := (noBid + noAsk) / 2
    yesBid := yesBid
    yesAsk := yesAsk
    noBid := noBid
    noAsk := noAsk
    spread := ((yesAsk - yesBid) + (noAsk - noBid)) / 2
    liquidity := yesLiquidity + noLiquidity
    volume := m.volume }
  (insertByLiquidity lm (removeFirstBy (fun x => x.slug == m.slug) lms)).take
    MAX_LIVE_MARKETS

/-- The module-level near-miss and live-market arrays of the standalone
server, threaded explicitly. -/
structure ScanEffects where
  nearMisses : List NearMiss
  liveMarkets : List LiveMarket
  deriving DecidableEq

/-- scanMarketForArbitrage from the standalone server: token-count
guard, book guard, best-price guard (JS falsiness), the always-run
live-market update, the near-miss update for deviation in (0, 0.05],
then pricing, profit threshold, liquidity threshold, risk threshold and
the opportunity record.  The book fetches are Options; the module
arrays are threaded through st. -/
def scanMarketForArbitrage (cfg : ScannerConfig) (m : MarketInfo) (nowMs : ℤ)
    (yesBookF noBookF : Option Book) (st : ScanEffects) :
    Option Opportunity × ScanEffects :=
  if m.tokens.length < 2 then (none, st)
  else
    match yesBookF, noBookF with
    | some yesBook, some noBook =>
      match truthyPrice (bestPriceQ yesBook.asks), truthyPrice (bestPriceQ yesBook.bids),
          truthyPrice (bestPriceQ noBook.asks), truthyPrice (bestPriceQ noBook.bids) with
      | some yesBestAsk, some yesBestBid, some noBestAsk, some noBestBid =>
        let combinedAsk := yesBestAsk + noBestAsk
        let combinedBid := yesBestBid + noBestBid
        let yesLiquidity := sumAskSizes yesBook
        let noLiquidity := sumAskSizes noBook
        let liveMarkets1 := addLiveMarket st.liveMarkets m
          yesBestAsk noBestAsk yesBestBid noBestBid yesLiquidity noLiquidity
        let deviation := |1 - combinedAsk|
        let nearMisses1 :=
          if 0 < deviation ∧ deviation ≤ 0.05 then
            addNearMiss st.nearMisses m yesBestAsk noBestAsk yesBestBid noBestBid
              combinedAsk combinedBid m.volume
          else st.nearMisses
        let st1 : ScanEffects := ⟨nearMisses1, liveMarkets1⟩
        let buyBothProfit := 1 - combinedAsk
        let sellBothProfit := combinedBid - 1
        let pr := analyzePricing yesBestAsk yesBestBid noBestAsk noBestBid
        if pr.1 = ArbDirection.NONE ∨ pr.2 < cfg.minProfitPercent then (none, st1)
        else
          let minLiquidity := min yesLiquidity noLiquidity
          if minLiquidityGate cfg.minLiquidity minLiquidity then (none, st1)
          else
            let dte := daysToExpiry m.endDateMs nowMs
            let avgSpread := ((yesBestAsk - yesBestBid) + (noBestAsk - noBestBid)) / 2
            let rs := calculateRiskScore pr.2 minLiquidity avgSpread dte
            if cfg.maxRiskScore < rs.1 then (none, st1)
            else
              let estimatedFees : ℚ := 0.01
              let estimatedGas : ℚ := 0.002
              (some {
                conditionId := m.conditionId
                question := m.question
                status := "active"
                arbDirection := pr.1
                combinedAsk := combinedAsk
                combinedBid := combinedBid
                grossProfitPercent := pr.2
                grossProfitAbsolute :=
                  if pr.1 = ArbDirection.BUY_BOTH then buyBothProfit else sellBothProfit
                netProfitPercent := pr.2 - estimatedFees * 100 - estimatedGas * 100
                netProfitAbsolute :=
                  (if pr.1 = ArbDirection.BUY_BOTH then buyBothProfit else sellBothProfit)
                    - estimatedFees - estimatedGas
                breakeven := estimatedFees + estimatedGas
                riskLevel := getRiskLevel rs.1
                riskScore := rs.1
                riskFactors := rs.2
                confidenceScore := if rs.1 ≤ 3 then 0.95 else if rs.1 ≤ 5 then 0.8 else 0.6
                recommendedSize := min (minLiquidity * 0.1) 1000
                maxSize := minLiquidity * 0.5
                liquidity := minLiquidity }, st1)
      | _, _, _, _ => (none, st)
    | _, _ => (none, st)

/-- The arbitrage sub-record of the serverless API result. -/
structure AnalyzeArb where
  kind : String
  profitPercent : ℚ
  profitAbsolute : ℚ
  combinedAsk : ℚ
  combinedBid : ℚ
  deriving DecidableEq

/-- The per-market record of the serverless API (formatted percent
strings and timestamp omitted). -/
structure AnalyzeResult where
  question : String
  slug : String
  category : String
  yesPrice : ℚ
  noPrice : ℚ
  yesBid : ℚ
  yesAsk : ℚ
  noBid : ℚ
  noAsk : ℚ
  combinedAsk : ℚ
  combinedBid : ℚ
  spread : ℚ
  liquidity : ℚ
  deviation : ℚ
  direction : String
  isNearMiss : Bool
  arbitrage : Option AnalyzeArb
  deriving DecidableEq

/-- analyzeMarket from api/scan.js: token-count guard, book guard,
best-price guard (JS falsiness), then the flat analysis record.  Its
arbitrage sub-record uses the stricter 0.001 absolute-profit threshold
and its isNearMiss flag additionally requires that no arbitrage was
found. -/
def analyzeMarket (m : MarketInfo) (yesBookF noBookF : Option Book) :
    Option AnalyzeResult :=
  if m.tokens.length < 2 then none
  else
    match yesBookF, noBookF with
    | some yesBook, some noBook =>
      match truthyPrice (bestPriceQ yesBook.asks), truthyPrice (bestPriceQ yesBook.bids),
          truthyPrice (bestPriceQ noBook.asks), truthyPrice (bestPriceQ noBook.bids) with
      | some yesBestAsk, some yesBestBid, some noBestAsk, some noBestBid =>
        let combinedAsk := yesBestAsk + noBestAsk
        let combinedBid := yesBestBid + noBestBid
        let yesLiquidity := sumAskSizes yesBook
        let noLiquidity := sumAskSizes noBook
        let buyBothProfit := 1 - combinedAsk
        let sellBothProfit := combinedBid - 1
        let arbitrage : Option AnalyzeArb :=
          if buyBothProfit > 0.001 then
            some {
              kind := "BUY_BOTH"
              profitPercent := buyBothProfit / combinedAsk * 100
              profitAbsolute := buyBothProfit
              combinedAsk := combinedAsk
              combinedBid := combinedBid }
          else if sellBothProfit > 0.001 then
            some {
              kind := "SELL_BOTH"
              profitPercent := sellBothProfit / 1 * 100
              profitAbsolute := sellBothProfit
              combinedAsk := combinedAsk
              combinedBid := combinedBid }
          else none
        let deviation := |1 - combinedAsk|
        some {
          question := m.question
          slug := m.slug
          category := m.category
          yesPrice := (yesBestBid + yesBestAsk) / 2
          noPrice := (noBestBid + noBestAsk) / 2
          yesBid := yesBestBid
          yesAsk := yesBestAsk
          noBid := noBestBid
          noAsk := noBestAsk
          combinedAsk := combinedAsk
          combinedBid := combinedBid
          spread := ((yesBestAsk - yesBestBid) + (noBestAsk - noBestBid)) / 2
          liquidity := yesLiquidity + noLiquidity
          deviation := deviation
          direction := if combinedAsk < 1 then "UNDERPRICED" else "OVERPRICED"
          isNearMiss := decide (0 < deviation ∧ deviation ≤ 0.05) && arbitrage.isNone
          arbitrage := arbitrage }
      | _, _, _, _ => none
    | _, _ => none

/-- Stats object of the standalone server. -/
structure ServerStats where
  marketsScanned : ℕ
  totalFound : ℕ
  activeOpps : ℕ
  bestProfit : ℚ
  totalScans : ℕ
  deriving DecidableEq

/-- Whole mutable state of the standalone server: its alerts, stats and
scanning flag, together with the module-level near-miss and live-market
arrays its scan mutates. -/
structure ServerWorld where
  alerts : List Opportunity
  stats : ServerStats
  isScanning : Bool
  nearMisses : List NearMiss
  liveMarkets : List LiveMarket
  deriving DecidableEq

/-- Math.max(...this.alerts.map(a => a.netProfitPercent)) for a
nonempty alert list (the caller guards emptiness). -/
def maxNetProfit : List Opportunity → ℚ
  | [] => 0
  | a :: rest => rest.foldl (fun acc o => max acc o.netProfitPercent) a.netProfitPercent

/-- PolyClaudeServer.addAlert: look for an existing alert with the same
market conditionId; replace it in place when found, otherwise unshift
the new alert and count it; then truncate to 100 and refresh the
derived stats. -/
def PolyClaudeServer.addAlert (w : ServerWorld) (opp : Opportunity) : ServerWorld :=
  let updated :=
    match w.alerts.findIdx? (fun a => a.conditionId == opp.conditionId) with
    | some i => { w with alerts := w.alerts.set i opp }
    | none =>
      { w with
          alerts := opp :: w.alerts
          stats := { w.stats with totalFound := w.stats.totalFound + 1 } }
  let alerts2 :=
    if updated.alerts.length > 100 then updated.alerts.take 100 else updated.alerts
  { updated with
      alerts := alerts2
      stats := { updated.stats with
        activeOpps := alerts2.length
        bestProfit := if alerts2.length > 0 then maxNetProfit alerts2 else 0 } }

/-- One catalog entry handed to the standalone server scan: the market
and the two order-book fetch results. -/
structure CatalogEntry where
  market : MarketInfo
  yesBook : Option Book
  noBook : Option Book

/-- PolyClaudeServer.runScan: drop the request when already scanning;
otherwise raise the flag, count the scan, handle the empty catalog,
then scan the first 100 markets in order (the batches of 5 with the
inter-batch delay join deterministically in catalog order) and lower
the flag.  fetchMarkets catches its own errors and returns [], so the
catalog is always a plain list. -/
def PolyClaudeServer.runScan (w : ServerWorld) (cfg : ScannerConfig) (nowMs : ℤ)
    (catalog : List CatalogEntry) : ServerWorld :=
  if w.isScanning then w
  else
    let w1 := { w with
      isScanning := true
      stats := { w.stats with totalScans := w.stats.totalScans + 1 } }
    if catalog.isEmpty then { w1 with isScanning := false }
    else
      let w2 := { w1 with stats := { w1.stats with marketsScanned := catalog.length } }
      let w3 := (catalog.take 100).foldl (fun acc e =>
        let r := scanMarketForArbitrage cfg e.market nowMs e.yesBook e.noBook
          ⟨acc.nearMisses, acc.liveMarkets⟩
        let acc1 := { acc with nearMisses := r.2.nearMisses, liveMarkets := r.2.liveMarkets }
        match r.1 with
        | some opp => PolyClaudeServer.addAlert acc1 opp
        | none => acc1) w2
      { w3 with isScanning := false }

/-- An alert record of the TypeScript terminal server (formatted
message strings and timestamp omitted). -/
structure ArbitrageAlert where
  opportunity : Opportunity
  priority : String
  deriving DecidableEq

/-- The terminal-server state the alert path touches. -/
structure TerminalState where
  alerts : List ArbitrageAlert
  totalOpportunitiesFound : ℕ
  activeOpportunities : ℕ
  deriving DecidableEq

/-- TerminalServer.addAlert: wrap the opportunity in an alert with a
profit-based priority and unconditionally unshift it - no lookup by
market key is performed - then truncate to 100 and refresh counters. -/
def TerminalServer.addAlert (s : TerminalState) (opp : Opportunity) : TerminalState :=
  let alert : ArbitrageAlert := {
    opportunity := opp
    priority :=
      if opp.netProfitPercent ≥ 3 then "CRITICAL"
      else if opp.netProfitPercent ≥ 2 then "HIGH"
      else if opp.netProfitPercent ≥ 1 then "MEDIUM"
      else "LOW" }
  let alerts1 := alert :: s.alerts
  let alerts2 := if alerts1.length > 100 then alerts1.take 100 else alerts1
  { alerts := alerts2
    totalOpportunitiesFound := s.totalOpportunitiesFound + 1
    activeOpportunities :=
      (alerts2.filter (fun a => a.opportunity.status == "active")).length }

/-- ScannerStats of the ElizaOS service. -/
structure ScannerStats where
  totalScans : ℕ
  totalOpportunitiesFound : ℕ
  activeOpportunities : ℕ
  marketsScanned : ℕ
  lastScanAtMs : ℤ
  deriving DecidableEq

/-- The service state runScan touches: the single-flight flag and the
stats. -/
structure ServiceState where
  isScanning : Bool
  stats : ScannerStats
  deriving DecidableEq

/-- One catalog entry handed to the service scan. -/
structure ServiceCatalogEntry where
  market : Market
  yesBook : Option Book
  noBook : Option Book

/-- Insertion step of the descending sort by netProfitPercent. -/
def insertDescByNet (o : Opportunity) : List Opportunity → List Opportunity
  | [] => [o]
  | x :: xs =>
    if o.netProfitPercent ≤ x.netProfitPercent then x :: insertDescByNet o xs
    else o :: x :: xs

/-- opportunities.sort((a, b) => b.netProfitPercent - a.netProfitPercent)
as an insertion sort. -/
def sortByNetProfitDesc (l : List Opportunity) : List Opportunity :=
  l.foldr insertDescByNet []

/-- PolyClaudeService.runScan: drop the request with an empty result
when already scanning; otherwise raise the flag and run the cycle - a
failed or empty catalog fetch yields an empty result - scanning the
active non-closed markets in catalog order (the batches of 10 with the
inter-batch delay join deterministically), sorting by net profit and
updating the stats; the finally block lowers the flag on every path. -/
def PolyClaudeService.runScan (s : ServiceState) (cfg : ScannerConfig) (nowMs : ℤ)
    (catalog : Option (List ServiceCatalogEntry)) :
    List Opportunity × ServiceState :=
  if s.isScanning then ([], s)
  else
    match catalog with
    | none => ([], { s with isScanning := false })
    | some mkts =>
      if mkts.isEmpty then ([], { s with isScanning := false })
      else
        let active := mkts.filter (fun e => e.market.active && !e.market.closed)
        let opps := active.filterMap (fun e => scanMarket cfg e.market nowMs e.yesBook e.noBook)
        let sorted := sortByNetProfitDesc opps
        (sorted,
         { isScanning := false
           stats := {
             totalScans := s.stats.totalScans + 1
             marketsScanned := active.length
             lastScanAtMs := nowMs
             totalOpportunitiesFound := s.stats.totalOpportunitiesFound + sorted.length
             activeOpportunities := sorted.length } })

/-- Cooldown state of the Telegram bot: the lastAlertTime map and the
cooldown in milliseconds (default 60000). -/
structure TelegramState where
  lastAlertTime : List (String × ℤ)
  cooldownMs : ℤ
  deriving DecidableEq

/-- this.lastAlertTime.get(marketId). -/
def lookupLast (st : TelegramState) (marketId : String) : Option ℤ :=
  (st.lastAlertTime.find? (fun p => p.1 == marketId)).map (fun p => p.2)

/-- this.lastAlertTime.set(marketId, t): replace or insert. -/
def setLast (st : TelegramState) (marketId : String) (t : ℤ) : TelegramState :=
  { st with lastAlertTime :=
      match st.lastAlertTime.findIdx? (fun p => p.1 == marketId) with
      | some i => st.lastAlertTime.set i (marketId, t)
      | none => (marketId, t) :: st.lastAlertTime }

/-- TelegramBotService.shouldSendAlert: true when the market was never
notified, else Date.now() - lastTime > this.cooldownMs (strictly
greater than the cooldown). -/
def shouldSendAlert (st : TelegramState) (marketId : String) (nowMs : ℤ) : Bool :=
  match lookupLast st marketId with
  | none => true
  | some lastTime => decide (nowMs - lastTime > st.cooldownMs)

/-- TelegramBotService.sendArbitrageAlert: return not-sent when the
cooldown check suppresses; otherwise try the MarkdownV2 message and, on
failure, the plain message (both delivery outcomes passed as oracles),
and stamp lastAlertTime only on confirmed success. -/
def sendArbitrageAlert (st : TelegramState) (marketId : String) (nowMs : ℤ)
    (markdownOk plainOk : Bool) : Bool × TelegramState :=
  if !shouldSendAlert st marketId nowMs then (false, st)
  else
    let success := markdownOk || plainOk
    if success then (true, setLast st marketId nowMs) else (false, st)

theorem scanMarket_none_of_missing (cfg : ScannerConfig) (m : Market) (nowMs : ℤ)
    (yesBook noBook : Book)
    (h : truthyPrice (bestPriceQ yesBook.asks) = none
       ∨ truthyPrice (bestPriceQ yesBook.bids) = none
       ∨ truthyPrice (bestPriceQ noBook.asks) = none
       ∨ truthyPrice (bestPriceQ noBook.bids) = none) :
    scanMarket cfg m nowMs (some yesBook) (some noBook) = none := by
  unfold scanMarket
  cases e1 : truthyPrice (bestPriceQ yesBook.asks) <;>
    cases e2 : truthyPrice (bestPriceQ yesBook.bids) <;>
      cases e3 : truthyPrice (bestPriceQ noBook.asks) <;>
        cases e4 : truthyPrice (bestPriceQ noBook.bids) <;>
          simp_all

theorem scanArb_unusable (cfg : ScannerConfig) (m : MarketInfo) (nowMs : ℤ)
    (yesBook noBook : Book) (st : ScanEffects)
    (h : truthyPrice (bestPriceQ yesBook.asks) = none
       ∨ truthyPrice (bestPriceQ yesBook.bids) = none
       ∨ truthyPrice (bestPriceQ noBook.asks) = none
       ∨ truthyPrice (bestPriceQ noBook.bids) = none) :
    scanMarketForArbitrage cfg m nowMs (some yesBook) (some noBook) st = (none, st) := by
  unfold scanMarketForArbitrage
  split
  · rfl
  · cases e1 : truthyPrice (bestPriceQ yesBook.asks) <;>
      cases e2 : truthyPrice (bestPriceQ yesBook.bids) <;>
        cases e3 : truthyPrice (bestPriceQ noBook.asks) <;>
          cases e4 : truthyPrice (bestPriceQ noBook.bids) <;>
            simp_all

theorem analyzeMarket_none_of_missing (m : MarketInfo) (yesBook noBook : Book)
    (h : truthyPrice (bestPriceQ yesBook.asks) = none
       ∨ truthyPrice (bestPriceQ yesBook.bids) = none
       ∨ truthyPrice (bestPriceQ noBook.asks) = none
       ∨ truthyPrice (bestPriceQ noBook.bids) = none) :
    analyzeMarket m (some yesBook) (some noBook) = none := by
  unfold analyzeMarket
  split
  · rfl
  · cases e1 : truthyPrice (bestPriceQ yesBook.asks) <;>
      cases e2 : truthyPrice (bestPriceQ yesBook.bids) <;>
        cases e3 : truthyPrice (bestPriceQ noBook.asks) <;>
          cases e4 : truthyPrice (bestPriceQ noBook.bids) <;>
            simp_all

/-- C9: if either book fetch failed, or a side of either book is empty
(missing best bid or best ask), the market analysis returns no
opportunity - in the service scanner and in the standalone scanner,
where it also leaves the near-miss and live-market lists untouched. -/
theorem C9_incomplete_snapshot (cfg : ScannerConfig) (m : Market) (mi : MarketInfo)
    (nowMs : ℤ) :
    (∀ b, scanMarket cfg m nowMs none b = none)
    ∧ (∀ b, scanMarket cfg m nowMs b none = none)
    ∧ (∀ yesBook noBook : Book,
        (yesBook.asks = [] ∨ yesBook.bids = [] ∨ noBook.asks = [] ∨ noBook.bids = []) →
        scanMarket cfg m nowMs (some yesBook) (some noBook) = none)
    ∧ (∀ b st, scanMarketForArbitrage cfg mi nowMs none b st = (none, st))
    ∧ (∀ b st, scanMarketForArbitrage cfg mi nowMs b none st = (none, st))
    ∧ (∀ (yesBook noBook : Book) (st : ScanEffects),
        (yesBook.asks = [] ∨ yesBook.bids = [] ∨ noBook.asks = [] ∨ noBook.bids = []) →
        scanMarketForArbitrage cfg mi nowMs (some yesBook) (some noBook) st = (none, st)) := by
  refine ⟨?_, ?_, ?_, ?_, ?_, ?_⟩
  · intro b; cases b <;> rfl
  · intro b; cases b <;> rfl
  · intro yesBook noBook h
    apply scanMarket_none_of_missing
    rcases h with h | h | h | h
    · exact Or.inl (by rw [h]; rfl)
    · exact Or.inr (Or.inl (by rw [h]; rfl))
    · exact Or.inr (Or.inr (Or.inl (by rw [h]; rfl)))
    · exact Or.inr (Or.inr (Or.inr (by rw [h]; rfl)))
  · intro b st
    unfold scanMarketForArbitrage
    split
    · rfl
    · cases b <;> rfl
  · intro b st
    unfold scanMarketForArbitrage
    split
    · rfl
    · cases b <;> rfl
  · intro yesBook noBook st h
    apply scanArb_unusable
    rcases h with h | h | h | h
    · exact Or.inl (by rw [h]; rfl)
    · exact Or.inr (Or.inl (by rw [h]; rfl))
    · exact Or.inr (Or.inr (Or.inl (by rw [h]; rfl)))
    · exact Or.inr (Or.inr (Or.inr (by rw [h]; rfl)))

/-- C9 witness: a failed yes-book fetch and an empty no-bid side, at
concrete inputs. -/
theorem C9_incomplete_snapshot_witness :
    scanMarket ⟨0.5, 7, some 100⟩ ⟨"c1", "q", "cat", 0, true, false⟩ 0 none
        (some ⟨[⟨0.5, 5⟩], [⟨0.4, 5⟩]⟩) = none
    ∧ scanMarket ⟨0.5, 7, some 100⟩ ⟨"c1", "q", "cat", 0, true, false⟩ 0
        (some ⟨[⟨0.5, 5⟩], [⟨0.4, 5⟩]⟩) (some ⟨[⟨0.5, 5⟩], []⟩) = none :=
  ⟨(C9_incomplete_snapshot ⟨0.5, 7, some 100⟩ ⟨"c1", "q", "cat", 0, true, false⟩
      ⟨"c1", "q", "s1", "cat", 0, 0, []⟩ 0).1 _,
   (C9_incomplete_snapshot ⟨0.5, 7, some 100⟩ ⟨"c1", "q", "cat", 0, true, false⟩
      ⟨"c1", "q", "s1", "cat", 0, 0, []⟩ 0).2.2.1 _ _
      (Or.inr (Or.inr (Or.inr rfl)))⟩

/-- C10: a best bid or best ask whose price parses to exactly 0 is
treated like a missing side: the market is rejected as unusable by all
three analyzers, producing no opportunity, and the standalone scanner
also adds neither a near-miss nor a live-market entry (its effect state
is returned unchanged). -/
theorem C10_zero_price (cfg : ScannerConfig) (m : Market) (mi : MarketInfo)
    (nowMs : ℤ) (yesBook noBook : Book) (st : ScanEffects)
    (h : bestPriceQ yesBook.asks = some 0 ∨ bestPriceQ yesBook.bids = some 0
       ∨ bestPriceQ noBook.asks = some 0 ∨ bestPriceQ noBook.bids = some 0) :
    scanMarket cfg m nowMs (some yesBook) (some noBook) = none
    ∧ scanMarketForArbitrage cfg mi nowMs (some yesBook) (some noBook) st = (none, st)
    ∧ analyzeMarket mi (some yesBook) (some noBook) = none := by
  have h2 : truthyPrice (bestPriceQ yesBook.asks) = none
      ∨ truthyPrice (bestPriceQ yesBook.bids) = none
      ∨ truthyPrice (bestPriceQ noBook.asks) = none
      ∨ truthyPrice (bestPriceQ noBook.bids) = none := by
    rcases h with h | h | h | h
    · exact Or.inl (by rw [h]; simp [truthyPrice])
    · exact Or.inr (Or.inl (by rw [h]; simp [truthyPrice]))
    · exact Or.inr (Or.inr (Or.inl (by rw [h]; simp [truthyPrice])))
    · exact Or.inr (Or.inr (Or.inr (by rw [h]; simp [truthyPrice])))
  exact ⟨scanMarket_none_of_missing cfg m nowMs yesBook noBook h2,
    scanArb_unusable cfg mi nowMs yesBook noBook st h2,
    analyzeMarket_none_of_missing mi yesBook noBook h2⟩

/-- C10 witness: a zero best ask on the yes side, at concrete inputs. -/
theorem C10_zero_price_witness :
    scanMarket ⟨0.1, 8, some 10⟩ ⟨"c1", "q", "cat", 0, true, false⟩ 0
        (some ⟨[⟨0, 5⟩], [⟨0.4, 5⟩]⟩) (some ⟨[⟨0.5, 5⟩], [⟨0.4, 5⟩]⟩) = none
    ∧ scanMarketForArbitrage ⟨0.1, 8, some 10⟩ ⟨"c1", "q", "s1", "cat", 0, 0, ["a", "b"]⟩ 0
        (some ⟨[⟨0, 5⟩], [⟨0.4, 5⟩]⟩) (some ⟨[⟨0.5, 5⟩], [⟨0.4, 5⟩]⟩) ⟨[], []⟩
      = (none, ⟨[], []⟩)
    ∧ analyzeMarket ⟨"c1", "q", "s1", "cat", 0, 0, ["a", "b"]⟩
        (some ⟨[⟨0, 5⟩], [⟨0.4, 5⟩]⟩) (some ⟨[⟨0.5, 5⟩], [⟨0.4, 5⟩]⟩) = none :=
  C10_zero_price ⟨0.1, 8, some 10⟩ ⟨"c1", "q", "cat", 0, true, false⟩
    ⟨"c1", "q", "s1", "cat", 0, 0, ["a", "b"]⟩ 0 ⟨[⟨0, 5⟩], [⟨0.4, 5⟩]⟩
    ⟨[⟨0.5, 5⟩], [⟨0.4, 5⟩]⟩ ⟨[], []⟩ (Or.inl rfl)

/-- C3: for an analyzable market (both books fetched, all four best
prices present and nonzero) whose direction is not NONE, the builder
accepts exactly when grossProfitPercent is at least
config.minProfitPercent and the later liquidity and risk gates also
pass: the profit boundary is inclusive at equality, and any value
strictly below the threshold is rejected. -/
theorem C3_profit_threshold (cfg : ScannerConfig) (m : Market) (nowMs : ℤ)
    (yesBook noBook : Book) (ya yb na nb : ℚ)
    (h1 : truthyPrice (bestPriceQ yesBook.asks) = some ya)
    (h2 : truthyPrice (bestPriceQ yesBook.bids) = some yb)
    (h3 : truthyPrice (bestPriceQ noBook.asks) = some na)
    (h4 : truthyPrice (bestPriceQ noBook.bids) = some nb)
    (hdir : (analyzePricing ya yb na nb).1 ≠ ArbDirection.NONE) :
    (scanMarket cfg m nowMs (some yesBook) (some noBook)).isSome = true ↔
      (cfg.minProfitPercent ≤ (analyzePricing ya yb na nb).2
        ∧ minLiquidityGate cfg.minLiquidity
            (min (sumAskSizes yesBook) (sumAskSizes noBook)) = false
        ∧ (calculateRiskScore (analyzePricing ya yb na nb).2
            (min (sumAskSizes yesBook) (sumAskSizes noBook))
            (((ya - yb) + (na - nb)) / 2)
            (daysToExpiry m.endDateMs nowMs)).1 ≤ cfg.maxRiskScore) := by
  unfold scanMarket
  dsimp only
  rw [h1, h2, h3, h4]
  dsimp only
  constructor
  · intro hsome
    by_cases hA : (analyzePricing ya yb na nb).1 = ArbDirection.NONE ∨
        (analyzePricing ya yb na nb).2 < cfg.minProfitPercent
    · rw [if_pos hA] at hsome
      exact Bool.noConfusion hsome
    · rw [if_neg hA] at hsome
      by_cases hB : minLiquidityGate cfg.minLiquidity
          (min (sumAskSizes yesBook) (sumAskSizes noBook)) = true
      · rw [if_pos hB] at hsome
        exact Bool.noConfusion hsome
      · rw [if_neg hB] at hsome
        by_cases hC : cfg.maxRiskScore < (calculateRiskScore (analyzePricing ya yb na nb).2
            (min (sumAskSizes yesBook) (sumAskSizes noBook))
            (((ya - yb) + (na - nb)) / 2) (daysToExpiry m.endDateMs nowMs)).1
        · rw [if_pos hC] at hsome
          exact Bool.noConfusion hsome
        · push_neg at hA
          exact ⟨hA.2, by simpa using hB, by omega⟩
  · rintro ⟨hge, hgate, hrisk⟩
    have n1 : ¬((analyzePricing ya yb na nb).1 = ArbDirection.NONE ∨
        (analyzePricing ya yb na nb).2 < cfg.minProfitPercent) := by
      rintro (h | h)
      · exact hdir h
      · linarith
    have n2 : ¬(minLiquidityGate cfg.minLiquidity
        (min (sumAskSizes yesBook) (sumAskSizes noBook)) = true) := by
      simp [hgate]
    have n3 : ¬(cfg.maxRiskScore < (calculateRiskScore (analyzePricing ya yb na nb).2
        (min (sumAskSizes yesBook) (sumAskSizes noBook))
        (((ya - yb) + (na - nb)) / 2) (daysToExpiry m.endDateMs nowMs)).1) := by omega
    rw [if_neg n1, if_neg n2, if_neg n3]
    rfl

/-- C3 witness: with minProfitPercent set exactly to the gross profit
25/6 of the quadruple (0.48, 0.47, 0.48, 0.47), the market is accepted
at the boundary. -/
theorem C3_profit_threshold_witness :
    (scanMarket ⟨25 / 6, 7, none⟩ ⟨"c1", "q", "cat", 2592000000, true, false⟩ 0
      (some ⟨[⟨0.48, 2000⟩], [⟨0.47, 1500⟩]⟩)
      (some ⟨[⟨0.48, 2000⟩], [⟨0.47, 1500⟩]⟩)).isSome = true :=
  (C3_profit_threshold ⟨25 / 6, 7, none⟩ ⟨"c1", "q", "cat", 2592000000, true, false⟩ 0
    ⟨[⟨0.48, 2000⟩], [⟨0.47, 1500⟩]⟩ ⟨[⟨0.48, 2000⟩], [⟨0.47, 1500⟩]⟩
    0.48 0.47 0.48 0.47
    (by norm_num [truthyPrice, bestPriceQ])
    (by norm_num [truthyPrice, bestPriceQ])
    (by norm_num [truthyPrice, bestPriceQ])
    (by norm_num [truthyPrice, bestPriceQ])
    (by norm_num [analyzePricing]; exact fun h => ArbDirection.noConfusion h)).mpr
    ⟨by norm_num [analyzePricing], rfl,
     by norm_num [analyzePricing, calculateRiskScore, liquidityPenalty, spreadPenalty,
       expiryPenalty, marginPenalty, daysToExpiry, sumAskSizes, min_self]⟩

/-- C7: both scan entry points are single-flight: a request arriving
while the scanning flag is set returns immediately - with an empty
result for the service - changing no state at all (stats, alerts,
near-miss and live-market lists all unchanged, nothing queued), and a
request that does run lowers the flag again on every path, including
the failed-catalog and empty-catalog paths. -/
theorem C7_single_flight :
    (∀ (s : ServiceState) (cfg : ScannerConfig) (nowMs : ℤ)
        (catalog : Option (List ServiceCatalogEntry)),
      s.isScanning = true →
        PolyClaudeService.runScan s cfg nowMs catalog = ([], s))
    ∧ (∀ (s : ServiceState) (cfg : ScannerConfig) (nowMs : ℤ)
        (catalog : Option (List ServiceCatalogEntry)),
      s.isScanning = false →
        (PolyClaudeService.runScan s cfg nowMs catalog).2.isScanning = false)
    ∧ (∀ (w : ServerWorld) (cfg : ScannerConfig) (nowMs : ℤ)
        (catalog : List CatalogEntry),
      w.isScanning = true → PolyClaudeServer.runScan w cfg nowMs catalog = w)
    ∧ (∀ (w : ServerWorld) (cfg : ScannerConfig) (nowMs : ℤ)
        (catalog : List CatalogEntry),
      w.isScanning = false →
        (PolyClaudeServer.runScan w cfg nowMs catalog).isScanning = false) := by
  refine ⟨?_, ?_, ?_, ?_⟩
  · intro s cfg nowMs catalog h
    simp [PolyClaudeService.runScan, h]
  · intro s cfg nowMs catalog h
    unfold PolyClaudeService.runScan
    rw [h]
    rcases catalog with _ | mkts
    · rfl
    · simp only [Bool.false_eq_true, if_false]
      split <;> rfl
  · intro w cfg nowMs catalog h
    simp [PolyClaudeServer.runScan, h]
  · intro w cfg nowMs catalog h
    unfold PolyClaudeServer.runScan
    rw [h]
    simp only [Bool.false_eq_true, if_false]
    split <;> rfl

/-- C7 witness: a dropped request on each entry point while the flag is
set. -/
theorem C7_single_flight_witness :
    PolyClaudeService.runScan ⟨true, ⟨0, 0, 0, 0, 0⟩⟩ ⟨0.5, 7, some 100⟩ 0 none
      = ([], ⟨true, ⟨0, 0, 0, 0, 0⟩⟩)
    ∧ PolyClaudeServer.runScan ⟨[], ⟨0, 0, 0, 0, 0⟩, true, [], []⟩ ⟨0.1, 8, some 10⟩ 0 []
      = ⟨[], ⟨0, 0, 0, 0, 0⟩, true, [], []⟩ :=
  ⟨C7_single_flight.1 ⟨true, ⟨0, 0, 0, 0, 0⟩⟩ ⟨0.5, 7, some 100⟩ 0 none rfl,
   C7_single_flight.2.2.1 ⟨[], ⟨0, 0, 0, 0, 0⟩, true, [], []⟩ ⟨0.1, 8, some 10⟩ 0 [] rfl⟩

theorem find?_set_key (k : String) (v : ℤ) :
    ∀ (l : List (String × ℤ)) (i : ℕ),
      l.findIdx? (fun p => p.1 == k) = some i →
      (l.set i (k, v)).find? (fun p => p.1 == k) = some (k, v) := by
  intro l
  induction l with
  | nil => intro i h; simp at h
  | cons x xs ih =>
    intro i h
    rw [List.findIdx?_cons] at h
    by_cases hx : (x.1 == k) = true
    · rw [if_pos hx] at h
      obtain rfl : i = 0 := by simpa using h.symm
      rw [List.set_cons_zero]
      exact List.find?_cons_of_pos _ (by simp)
    · rw [if_neg hx, List.findIdx?_succ] at h
      obtain ⟨j, hj, rfl⟩ : ∃ j, xs.findIdx? (fun p => p.1 == k) = some j ∧ i = j + 1 := by
        cases e : xs.findIdx? (fun p => p.1 == k) with
        | none => rw [e] at h; simp at h
        | some j => rw [e] at h; simp at h; exact ⟨j, rfl, h.symm⟩
      rw [List.set_cons_succ]
      have hx2 : (x.1 == k) = false := by simpa using hx
      simp only [List.find?_cons, hx2]
      exact ih j hj

theorem lookupLast_setLast (st : TelegramState) (k : String) (v : ℤ) :
    lookupLast (setLast st k v) k = some v := by
  unfold lookupLast setLast
  cases e : st.lastAlertTime.findIdx? (fun p => p.1 == k) with
  | none =>
    dsimp only
    rw [List.find?_cons_of_pos _ (by simp)]
    rfl
  | some i =>
    dsimp only
    rw [find?_set_key k v st.lastAlertTime i e]
    rfl

/-- C6 counterexample: with the 60000 ms reference cooldown and
lastNotified = 0, a send attempt at now = 60000 is suppressed by
shouldSendAlert even though the claimed suppression condition
now - lastNotified < cooldown does not hold, so suppression is not
equivalent to now - lastNotified < cooldown. -/
theorem C6_counterexample :
    shouldSendAlert ⟨[("m1", 0)], 60000⟩ "m1" 60000 = false
    ∧ ¬((60000 : ℤ) - 0 < 60000) := by
  exact ⟨rfl, by decide⟩

/-- C6 amended: the gate suppresses exactly when a previous notification
exists and now - lastNotified is at most the cooldown window (the source
allows a send only when now - lastNotified is strictly greater than the
cooldown, so at exact equality it still suppresses); when it allows,
lastNotified is stamped to now exactly on confirmed successful delivery,
and a failed delivery leaves the cooldown map unchanged, so a later
attempt is governed by the original timestamp. -/
theorem C6_cooldown_gate (st : TelegramState) (marketId : String) (nowMs : ℤ)
    (markdownOk plainOk : Bool) :
    (shouldSendAlert st marketId nowMs = false ↔
      ∃ lastTime, lookupLast st marketId = some lastTime
        ∧ nowMs - lastTime ≤ st.cooldownMs)
    ∧ (shouldSendAlert st marketId nowMs = false →
        sendArbitrageAlert st marketId nowMs markdownOk plainOk = (false, st))
    ∧ (shouldSendAlert st marketId nowMs = true → (markdownOk || plainOk) = true →
        sendArbitrageAlert st marketId nowMs markdownOk plainOk
            = (true, setLast st marketId nowMs)
          ∧ lookupLast (setLast st marketId nowMs) marketId = some nowMs)
    ∧ (shouldSendAlert st marketId nowMs = true →
        markdownOk = false → plainOk = false →
        sendArbitrageAlert st marketId nowMs markdownOk plainOk = (false, st)) := by
  refine ⟨?_, ?_, ?_, ?_⟩
  · unfold shouldSendAlert
    cases e : lookupLast st marketId with
    | none => simp
    | some t =>
      simp only [decide_eq_false_iff_not, not_lt, gt_iff_lt, Option.some.injEq]
      constructor
      · intro h; exact ⟨t, rfl, h⟩
      · rintro ⟨t2, ht2, hle⟩
        cases ht2
        exact hle
  · intro h
    simp [sendArbitrageAlert, h]
  · intro h hok
    refine ⟨by simp [sendArbitrageAlert, h, hok], lookupLast_setLast st marketId nowMs⟩
  · intro h hm hp
    simp [sendArbitrageAlert, h, hm, hp]

/-- C6 amended witness: a never-notified market is allowed and the
timestamp is stamped on a successful delivery. -/
theorem C6_cooldown_gate_witness :
    sendArbitrageAlert ⟨[], 60000⟩ "m1" 5 true false = (true, setLast ⟨[], 60000⟩ "m1" 5)
    ∧ lookupLast (setLast ⟨[], 60000⟩ "m1" 5) "m1" = some 5 :=
  (C6_cooldown_gate ⟨[], 60000⟩ "m1" 5 true false).2.2.1 rfl rfl

/-- A concrete opportunity record used in the concrete instances. -/
def testOpp (cid : String) (net : ℚ) : Opportunity :=
  { conditionId := cid
    question := "q"
    status := "active"
    arbDirection := ArbDirection.BUY_BOTH
    combinedAsk := 0.95
    combinedBid := 0.93
    grossProfitPercent := 5
    grossProfitAbsolute := 0.05
    netProfitPercent := net
    netProfitAbsolute := net / 100
    breakeven := 0.012
    riskLevel := "LOW"
    riskScore := 3
    riskFactors := []
    confidenceScore := 0.95
    recommendedSize := 100
    maxSize := 500
    liquidity := 1000 }

theorem set_eq_self_of_getElem? {α : Type _} :
    ∀ (l : List α) (i : ℕ) (a : α), l[i]? = some a → l.set i a = l
  | [], i, a, h => by simp at h
  | x :: xs, 0, a, h => by
    simp only [List.getElem?_cons_zero, Option.some.injEq] at h
    simp [h]
  | x :: xs, i + 1, a, h => by
    simp only [List.getElem?_cons_succ] at h
    simp [set_eq_self_of_getElem? xs i a h]

/-- C4 counterexample: the TypeScript terminal server appends alerts
without any market-key lookup, so delivering the same market twice in
one cycle leaves two alert records with the same conditionId in the
collection. -/
theorem C4_counterexample :
    ((TerminalServer.addAlert (TerminalServer.addAlert ⟨[], 0, 0⟩ (testOpp "m1" 2))
        (testOpp "m1" 2)).alerts.filter
      (fun a => a.opportunity.conditionId == "m1")).length = 2 := by
  norm_num [TerminalServer.addAlert, testOpp, List.filter]

/-- C4 amended: the standalone server alert collection does deduplicate:
addAlert keeps the conditionId keys of the alert list free of
duplicates, and when the key is already present the record is replaced
in place (same position, same length) rather than appended; the
TypeScript terminal server path, by contrast, appends without
deduplication. -/
theorem C4_dedup (w : ServerWorld) (opp : Opportunity)
    (hnodup : (w.alerts.map (fun a => a.conditionId)).Nodup)
    (hlen : w.alerts.length ≤ 100) :
    ((PolyClaudeServer.addAlert w opp).alerts.map (fun a => a.conditionId)).Nodup
    ∧ (∀ i, w.alerts.findIdx? (fun a => a.conditionId == opp.conditionId) = some i →
        (PolyClaudeServer.addAlert w opp).alerts = w.alerts.set i opp
        ∧ (PolyClaudeServer.addAlert w opp).alerts.length = w.alerts.length) := by
  have hmain : ∀ i,
      w.alerts.findIdx? (fun a => a.conditionId == opp.conditionId) = some i →
      (PolyClaudeServer.addAlert w opp).alerts = w.alerts.set i opp := by
    intro i e
    unfold PolyClaudeServer.addAlert
    rw [e]
    dsimp only
    rw [if_neg (by simp only [List.length_set]; omega)]
  refine ⟨?_, fun i e => ⟨hmain i e, by rw [hmain i e, List.length_set]⟩⟩
  cases e : w.alerts.findIdx? (fun a => a.conditionId == opp.conditionId) with
  | some i =>
    rw [hmain i e]
    obtain ⟨hi, hp, -⟩ := List.findIdx?_eq_some_iff_getElem.mp e
    have hcid : w.alerts[i].conditionId = opp.conditionId := by
      simpa using hp
    rw [List.map_set]
    rw [set_eq_self_of_getElem?]
    · exact hnodup
    · rw [List.getElem?_map]
      rw [List.getElem?_eq_getElem hi]
      simp [hcid]
  | none =>
    have hout : opp.conditionId ∉ w.alerts.map (fun a => a.conditionId) := by
      intro hmem
      obtain ⟨a, ha, hcid⟩ := List.mem_map.mp hmem
      have := List.findIdx?_eq_none_iff.mp e a ha
      simp [hcid] at this
    have hcons : ((opp :: w.alerts).map (fun a => a.conditionId)).Nodup := by
      simp only [List.map_cons, List.nodup_cons]
      exact ⟨hout, hnodup⟩
    have halerts : (PolyClaudeServer.addAlert w opp).alerts =
        if (opp :: w.alerts).length > 100 then (opp :: w.alerts).take 100
        else opp :: w.alerts := by
      unfold PolyClaudeServer.addAlert
      rw [e]
    rw [halerts]
    by_cases hc : (opp :: w.alerts).length > 100
    · rw [if_pos hc, List.map_take]
      exact List.Nodup.sublist (List.take_sublist 100 _) hcons
    · rw [if_neg hc]
      exact hcons

/-- C4 amended witness: re-adding a market already present replaces its
record in place. -/
theorem C4_dedup_witness :
    (PolyClaudeServer.addAlert ⟨[testOpp "m1" 2], ⟨0, 0, 0, 0, 0⟩, false, [], []⟩
        (testOpp "m1" 3)).alerts = [testOpp "m1" 2].set 0 (testOpp "m1" 3)
    ∧ (PolyClaudeServer.addAlert ⟨[testOpp "m1" 2], ⟨0, 0, 0, 0, 0⟩, false, [], []⟩
        (testOpp "m1" 3)).alerts.length = [testOpp "m1" 2].length :=
  (C4_dedup ⟨[testOpp "m1" 2], ⟨0, 0, 0, 0, 0⟩, false, [], []⟩ (testOpp "m1" 3)
    (by simp) (by simp)).2 0 rfl

/-- The near-miss list invariant maintained by addNearMiss: deviation
ascending (closest to arbitrage first). -/
def sortedByDeviation (l : List NearMiss) : Prop :=
  l.Pairwise (fun a b => a.deviation ≤ b.deviation)

theorem insertByDeviation_perm (nm : NearMiss) :
    ∀ l : List NearMiss, (insertByDeviation nm l).Perm (nm :: l)
  | [] => List.Perm.refl _
  | x :: xs => by
    unfold insertByDeviation
    split
    · exact List.Perm.refl _
    · exact ((insertByDeviation_perm nm xs).cons x).trans (List.Perm.swap nm x xs)

theorem mem_insertByDeviation {a nm : NearMiss} {l : List NearMiss} :
    a ∈ insertByDeviation nm l ↔ a = nm ∨ a ∈ l := by
  rw [(insertByDeviation_perm nm l).mem_iff]
  simp

theorem insertByDeviation_sorted (nm : NearMiss) :
    ∀ l : List NearMiss, sortedByDeviation l → sortedByDeviation (insertByDeviation nm l)
  | [], _ => by
    simp only [insertByDeviation, sortedByDeviation]
    exact List.pairwise_singleton _ _
  | x :: xs, h => by
    simp only [sortedByDeviation, List.pairwise_cons] at h
    obtain ⟨hx, hxs⟩ := h
    unfold insertByDeviation
    split_ifs with hd
    · simp only [sortedByDeviation, List.pairwise_cons]
      refine ⟨?_, ?_, hxs⟩
      · intro b hb
        rcases List.mem_cons.mp hb with rfl | hb2
        · exact le_of_lt hd
        · exact le_trans (le_of_lt hd) (hx b hb2)
      · exact hx
    · simp only [sortedByDeviation, List.pairwise_cons]
      refine ⟨?_, insertByDeviation_sorted nm xs hxs⟩
      intro b hb
      rcases mem_insertByDeviation.mp hb with rfl | hb2
      · exact not_lt.mp hd
      · exact hx b hb2

theorem removeFirstBy_sublist {α : Type _} (p : α → Bool) :
    ∀ l : List α, List.Sublist (removeFirstBy p l) l
  | [] => List.Sublist.refl _
  | x :: xs => by
    unfold removeFirstBy
    split
    · exact List.sublist_cons_self x xs
    · exact List.Sublist.cons₂ x (removeFirstBy_sublist p xs)

theorem removeFirstBy_keys (s : String) :
    ∀ l : List NearMiss, ((l.map (fun n => n.slug)).Nodup) →
      ∀ x ∈ removeFirstBy (fun n => n.slug == s) l, x.slug ≠ s
  | [], _, x, hx => by simp [removeFirstBy] at hx
  | a :: as, hn, x, hx => by
    rw [List.map_cons, List.nodup_cons] at hn
    obtain ⟨hna, hnas⟩ := hn
    unfold removeFirstBy at hx
    by_cases ha : (a.slug == s) = true
    · rw [if_pos ha] at hx
      intro hxs
      exact hna (List.mem_map.mpr ⟨x, hx, hxs.trans (beq_iff_eq.mp ha).symm⟩)
    · rw [if_neg ha] at hx
      rcases List.mem_cons.mp hx with rfl | hx2
      · simpa using ha
      · exact removeFirstBy_keys s as hnas x hx2

/-- C5 counterexample: for a market with combinedAsk = 0.96 - deviation
0.04 lies in (0, 0.05] - the standalone scanner both accepts an
Opportunity and adds the market to the near-miss list in the same call,
so near-miss membership is not conditional on no Opportunity having
been accepted. -/
theorem C5_counterexample :
    ((scanMarketForArbitrage ⟨0.1, 8, some 10⟩
        ⟨"c1", "q", "s1", "cat", 2592000000, 50, ["t1", "t2"]⟩ 0
        (some ⟨[⟨0.48, 1000⟩], [⟨0.47, 800⟩]⟩)
        (some ⟨[⟨0.48, 1000⟩], [⟨0.47, 800⟩]⟩) ⟨[], []⟩).1.isSome = true)
    ∧ ((scanMarketForArbitrage ⟨0.1, 8, some 10⟩
        ⟨"c1", "q", "s1", "cat", 2592000000, 50, ["t1", "t2"]⟩ 0
        (some ⟨[⟨0.48, 1000⟩], [⟨0.47, 800⟩]⟩)
        (some ⟨[⟨0.48, 1000⟩], [⟨0.47, 800⟩]⟩) ⟨[], []⟩).2.nearMisses.map
          (fun n => n.slug) = ["s1"]) := by
  have habs : |(1 : ℚ) - (0.48 + 0.48)| = 1 / 25 := by norm_num
  have habs2 : |(1 : ℚ) / 25| = 1 / 25 := abs_of_pos (by norm_num)
  have hctor : (ArbDirection.BUY_BOTH = ArbDirection.NONE) = False :=
    eq_false (by decide)
  constructor <;>
    norm_num [scanMarketForArbitrage, addNearMiss, addLiveMarket, insertByDeviation,
      insertByLiquidity, removeFirstBy, mkNearMiss, truthyPrice, bestPriceQ,
      sumAskSizes, analyzePricing, minLiquidityGate, calculateRiskScore,
      liquidityPenalty, spreadPenalty, expiryPenalty, marginPenalty, daysToExpiry,
      MAX_NEAR_MISSES, MAX_LIVE_MARKETS, habs, habs2, hctor]

/-- C5 amended: for every analyzable market the standalone scanner
updates the near-miss list exactly when deviation = |1 - combinedAsk|
lies in (0, 0.05], regardless of whether an Opportunity is accepted for
the market in the same cycle; and every addNearMiss update is an
insert-or-replace by market slug (keys stay duplicate-free), keeps the
list sorted by deviation ascending, caps it at the capacity bound, and
the entries dropped by the cap are those with the largest deviations. -/
theorem C5_near_miss (m : MarketInfo) (nowMs : ℤ) (yesBook noBook : Book)
    (ya yb na nb : ℚ)
    (h1 : truthyPrice (bestPriceQ yesBook.asks) = some ya)
    (h2 : truthyPrice (bestPriceQ yesBook.bids) = some yb)
    (h3 : truthyPrice (bestPriceQ noBook.asks) = some na)
    (h4 : truthyPrice (bestPriceQ noBook.bids) = some nb)
    (htok : 2 ≤ m.tokens.length) :
    (∀ (cfg : ScannerConfig) (st : ScanEffects),
      (scanMarketForArbitrage cfg m nowMs (some yesBook) (some noBook) st).2.nearMisses =
        (if 0 < |1 - (ya + na)| ∧ |1 - (ya + na)| ≤ 0.05 then
          addNearMiss st.nearMisses m ya na yb nb (ya + na) (yb + nb) m.volume
        else st.nearMisses))
    ∧ (∀ (nms : List NearMiss) (a1 a2 b1 b2 ca cb v : ℚ),
        sortedByDeviation nms →
          sortedByDeviation (addNearMiss nms m a1 a2 b1 b2 ca cb v))
    ∧ (∀ (nms : List NearMiss) (a1 a2 b1 b2 ca cb v : ℚ),
        (addNearMiss nms m a1 a2 b1 b2 ca cb v).length ≤ MAX_NEAR_MISSES)
    ∧ (∀ (nms : List NearMiss) (a1 a2 b1 b2 ca cb v : ℚ),
        ((nms.map (fun n => n.slug)).Nodup) →
          (((addNearMiss nms m a1 a2 b1 b2 ca cb v).map (fun n => n.slug)).Nodup))
    ∧ (∀ (nms : List NearMiss) (a1 a2 b1 b2 ca cb v : ℚ),
        sortedByDeviation nms →
          ∀ x ∈ addNearMiss nms m a1 a2 b1 b2 ca cb v,
          ∀ y ∈ (insertByDeviation (mkNearMiss m a1 a2 b1 b2 ca cb v)
              (removeFirstBy (fun n => n.slug == m.slug) nms)).drop MAX_NEAR_MISSES,
          x.deviation ≤ y.deviation) := by
  refine ⟨?_, ?_, ?_, ?_, ?_⟩
  · intro cfg st
    unfold scanMarketForArbitrage
    rw [if_neg (by omega)]
    dsimp only
    rw [h1, h2, h3, h4]
    dsimp only
    split_ifs <;> rfl
  · intro nms a1 a2 b1 b2 ca cb v hs
    unfold addNearMiss
    exact List.Pairwise.sublist (List.take_sublist _ _)
      (insertByDeviation_sorted _ _
        (List.Pairwise.sublist (removeFirstBy_sublist _ _) hs))
  · intro nms a1 a2 b1 b2 ca cb v
    unfold addNearMiss
    rw [List.length_take]
    exact min_le_left _ _
  · intro nms a1 a2 b1 b2 ca cb v hn
    unfold addNearMiss
    rw [List.map_take]
    apply List.Nodup.sublist (List.take_sublist _ _)
    rw [((insertByDeviation_perm _ _).map (fun n => n.slug)).nodup_iff]
    rw [List.map_cons, List.nodup_cons]
    constructor
    · intro hmem
      obtain ⟨x, hxmem, hxs⟩ := List.mem_map.mp hmem
      exact removeFirstBy_keys m.slug nms hn x hxmem hxs
    · exact List.Nodup.sublist ((removeFirstBy_sublist _ _).map _) hn
  · intro nms a1 a2 b1 b2 ca cb v hs x hx y hy
    have hsorted : sortedByDeviation
        (insertByDeviation (mkNearMiss m a1 a2 b1 b2 ca cb v)
          (removeFirstBy (fun n => n.slug == m.slug) nms)) :=
      insertByDeviation_sorted _ _
        (List.Pairwise.sublist (removeFirstBy_sublist _ _) hs)
    have hsplit : List.Pairwise (fun a b => a.deviation ≤ b.deviation)
        ((insertByDeviation (mkNearMiss m a1 a2 b1 b2 ca cb v)
            (removeFirstBy (fun n => n.slug == m.slug) nms)).take MAX_NEAR_MISSES ++
         (insertByDeviation (mkNearMiss m a1 a2 b1 b2 ca cb v)
            (removeFirstBy (fun n => n.slug == m.slug) nms)).drop MAX_NEAR_MISSES) := by
      rw [List.take_append_drop]
      exact hsorted
    exact (List.pairwise_append.mp hsplit).2.2 x hx y hy

/-- C5 amended witness: the concrete 0.96-combined-ask market updates
the near-miss list of an empty state even though it is accepted. -/
theorem C5_near_miss_witness :
    (scanMarketForArbitrage ⟨0.1, 8, some 10⟩
        ⟨"c1", "q", "s1", "cat", 2592000000, 50, ["t1", "t2"]⟩ 0
        (some ⟨[⟨0.48, 1000⟩], [⟨0.47, 800⟩]⟩)
        (some ⟨[⟨0.48, 1000⟩], [⟨0.47, 800⟩]⟩) ⟨[], []⟩).2.nearMisses =
      (if 0 < |1 - ((0.48 : ℚ) + 0.48)| ∧ |1 - ((0.48 : ℚ) + 0.48)| ≤ 0.05 then
        addNearMiss [] ⟨"c1", "q", "s1", "cat", 2592000000, 50, ["t1", "t2"]⟩
          0.48 0.48 0.47 0.47 (0.48 + 0.48) (0.47 + 0.47) 50
      else []) :=
  (C5_near_miss ⟨"c1", "q", "s1", "cat", 2592000000, 50, ["t1", "t2"]⟩ 0
    ⟨[⟨0.48, 1000⟩], [⟨0.47, 800⟩]⟩ ⟨[⟨0.48, 1000⟩], [⟨0.47, 800⟩]⟩
    0.48 0.47 0.48 0.47
    (by norm_num [truthyPrice, bestPriceQ]) (by norm_num [truthyPrice, bestPriceQ])
    (by norm_num [truthyPrice, bestPriceQ]) (by norm_num [truthyPrice, bestPriceQ])
    (by simp)).1 ⟨0.1, 8, some 10⟩ ⟨[], []⟩
